import Mathlib

/-!
Shallow embedding of `src/cep-extension.js` (CEPExtension adapter for Adobe
CEP panels) and verification of the frozen claims about it.

JavaScript values that can flow through the adapter's settings store and
script bridge are modelled by `CEP.JSValue` (with a separate `undef`
constructor, since the code distinguishes `undefined` from `null`).
`JSON.parse` is modelled by a recursive-descent parser over the JSON
grammar, `JSON.stringify` by a serializer; both are executable so that
theorems about concrete inputs can be settled by evaluation.
-/

namespace CEP

/-- JavaScript values reachable in the adapter: `undefined`, `null`,
booleans, numbers (modelled as rationals), strings, arrays and objects
(insertion-ordered association lists, as JS objects are). -/
inductive JSValue where
| undef : JSValue
| null : JSValue
| bool : Bool → JSValue
| num : ℚ → JSValue
| str : String → JSValue
| arr : List JSValue → JSValue
| obj : List (String × JSValue) → JSValue

/-- JavaScript truthiness: `undefined`, `null`, `false`, `0` and `""` are
falsy; every object and array is truthy. (`NaN` is not representable in the
rational model.) -/
def truthy : JSValue → Bool
| JSValue.undef => false
| JSValue.null => false
| JSValue.bool b => b
| JSValue.num q => !(q == 0)
| JSValue.str s => !(s == "")
| JSValue.arr _ => true
| JSValue.obj _ => true

/-- The `\x7b` character (left curly brace), kept as a named constant. -/
def braceOpen : Char := Char.ofNat 123

/-- The `\x7d` character (right curly brace), kept as a named constant. -/
def braceClose : Char := Char.ofNat 125

/-- JSON insignificant whitespace: space, tab, line feed, carriage return. -/
def isJsonWs (c : Char) : Bool := c = ' ' || c = '\t' || c = '\n' || c = '\r'

/-- Drop leading JSON whitespace. -/
def skipWs : List Char → List Char
| [] => []
| c :: rest => if isJsonWs c then skipWs rest else c :: rest

/-- Value of a hexadecimal digit character, `none` for non-hex characters. -/
def hexVal (c : Char) : Option Nat :=
  if '0' ≤ c ∧ c ≤ '9' then some (c.toNat - 48)
  else if 'a' ≤ c ∧ c ≤ 'f' then some (c.toNat - 87)
  else if 'A' ≤ c ∧ c ≤ 'F' then some (c.toNat - 55)
  else none

/-- Single-character JSON string escape codes (`\"`, `\\`, `\/`, `\b`,
`\f`, `\n`, `\r`, `\t`). -/
def escapeCode (e : Char) : Option Char :=
  if e = '"' then some '"'
  else if e = '\\' then some '\\'
  else if e = '/' then some '/'
  else if e = 'b' then some (Char.ofNat 8)
  else if e = 'f' then some (Char.ofNat 12)
  else if e = 'n' then some '\n'
  else if e = 'r' then some '\r'
  else if e = 't' then some '\t'
  else none

/-- Parse the body of a JSON string after the opening quote, returning the
decoded characters and the remaining input.  Fuel-indexed; a fuel of
`input length + 1` always suffices since every step consumes input. -/
def parseStringBody : Nat → List Char → Option (List Char × List Char)
| 0, _ => none
| fuel+1, l =>
  match l with
  | [] => none
  | c :: rest =>
    if c = '"' then some ([], rest)
    else if c = '\\' then
      match rest with
      | [] => none
      | e :: rest2 =>
        if e = 'u' then
          match rest2 with
          | a :: b :: c2 :: d :: rest3 =>
            match hexVal a, hexVal b, hexVal c2, hexVal d with
            | some ha, some hb, some hc, some hd =>
              match parseStringBody fuel rest3 with
              | some (cs, r) => some (Char.ofNat (((ha * 16 + hb) * 16 + hc) * 16 + hd) :: cs, r)
              | none => none
            | _, _, _, _ => none
          | _ => none
        else
          match escapeCode e with
          | some ec =>
            match parseStringBody fuel rest2 with
            | some (cs, r) => some (ec :: cs, r)
            | none => none
          | none => none
    else if c.toNat < 32 then none
    else
      match parseStringBody fuel rest with
      | some (cs, r) => some (c :: cs, r)
      | none => none

/-- Split the longest leading run of decimal digits from the input. -/
def takeDigits : List Char → List Char × List Char
| [] => ([], [])
| c :: rest =>
  if c.isDigit then
    match takeDigits rest with
    | (ds, r) => (c :: ds, r)
  else ([], c :: rest)

/-- Decimal digits to a natural number. -/
def digitsToNat (ds : List Char) : Nat := ds.foldl (fun a c => a * 10 + (c.toNat - 48)) 0

/-- Parse an optional JSON exponent part (`e`/`E`, optional sign, digits);
returns exponent `0` when no exponent is present. -/
def parseExpPart (l : List Char) : Option (Int × List Char) :=
  match l with
  | [] => some (0, l)
  | c :: rest =>
    if c = 'e' ∨ c = 'E' then
      match rest with
      | [] => none
      | s :: rest2 =>
        if s = '+' then
          match takeDigits rest2 with
          | ([], _) => none
          | (ds, r) => some ((digitsToNat ds : Int), r)
        else if s = '-' then
          match takeDigits rest2 with
          | ([], _) => none
          | (ds, r) => some (-(digitsToNat ds : Int), r)
        else
          match takeDigits rest with
          | ([], _) => none
          | (ds, r) => some ((digitsToNat ds : Int), r)
    else some (0, l)

/-- Parse an optional JSON fraction part (`.` followed by digits); returns
`0` when no fraction is present. -/
def parseFracPart (l : List Char) : Option (ℚ × List Char) :=
  match l with
  | [] => some (0, l)
  | c :: rest =>
    if c = '.' then
      match takeDigits rest with
      | ([], _) => none
      | (ds, r) => some ((digitsToNat ds : ℚ) / (10 : ℚ) ^ ds.length, r)
    else some (0, l)

/-- Parse a JSON number (optional minus, integer part with no leading
zeros, optional fraction, optional exponent). -/
def parseNumber (l : List Char) : Option (ℚ × List Char) :=
  match (match l with
         | c :: rest => if c = '-' then (true, rest) else (false, l)
         | [] => (false, l)) with
  | (neg, l1) =>
    match takeDigits l1 with
    | ([], _) => none
    | (ds, l2) =>
      if 1 < ds.length ∧ ds.headD ' ' = '0' then none
      else
        match parseFracPart l2 with
        | none => none
        | some (fq, l3) =>
          match parseExpPart l3 with
          | none => none
          | some (e, l4) =>
            let q : ℚ := ((digitsToNat ds : ℚ) + fq) * (10 : ℚ) ^ e
            some (if neg then -q else q, l4)

mutual

/-- Parse a JSON value (after skipping whitespace): object, array, string,
`null`, `true`, `false`, or number.  Fuel-indexed mutual recursion; the
fuel supplied by `parseJSON` always suffices (at most two fuel decrements
happen per consumed input character). -/
def parseValue : Nat → List Char → Option (JSValue × List Char)
| 0, _ => none
| fuel+1, l =>
  match skipWs l with
  | [] => none
  | c :: rest =>
    if c = braceOpen then
      match skipWs rest with
      | [] => none
      | c2 :: rest2 =>
        if c2 = braceClose then some (JSValue.obj [], rest2)
        else
          match parseMembers fuel (c2 :: rest2) with
          | some (fs, r) => some (JSValue.obj fs, r)
          | none => none
    else if c = '[' then
      match skipWs rest with
      | [] => none
      | c2 :: rest2 =>
        if c2 = ']' then some (JSValue.arr [], rest2)
        else
          match parseElements fuel (c2 :: rest2) with
          | some (vs, r) => some (JSValue.arr vs, r)
          | none => none
    else if c = '"' then
      match parseStringBody (rest.length + 1) rest with
      | some (cs, r) => some (JSValue.str (String.mk cs), r)
      | none => none
    else
      match c :: rest with
      | 'n' :: 'u' :: 'l' :: 'l' :: r => some (JSValue.null, r)
      | 't' :: 'r' :: 'u' :: 'e' :: r => some (JSValue.bool true, r)
      | 'f' :: 'a' :: 'l' :: 's' :: 'e' :: r => some (JSValue.bool false, r)
      | l2 =>
        match parseNumber l2 with
        | some (q, r) => some (JSValue.num q, r)
        | none => none

/-- Parse the comma-separated elements of a non-empty JSON array, up to and
including the closing bracket. -/
def parseElements : Nat → List Char → Option (List JSValue × List Char)
| 0, _ => none
| fuel+1, l =>
  match parseValue fuel l with
  | none => none
  | some (v, rest) =>
    match skipWs rest with
    | [] => none
    | c :: rest2 =>
      if c = ',' then
        match parseElements fuel rest2 with
        | some (vs, r) => some (v :: vs, r)
        | none => none
      else if c = ']' then some ([v], rest2)
      else none

/-- Parse the comma-separated members of a non-empty JSON object, up to and
including the closing brace. -/
def parseMembers : Nat → List Char → Option (List (String × JSValue) × List Char)
| 0, _ => none
| fuel+1, l =>
  match skipWs l with
  | [] => none
  | c :: rest =>
    if c = '"' then
      match parseStringBody (rest.length + 1) rest with
      | none => none
      | some (key, rest2) =>
        match skipWs rest2 with
        | [] => none
        | c2 :: rest3 =>
          if c2 = ':' then
            match parseValue fuel rest3 with
            | none => none
            | some (v, rest4) =>
              match skipWs rest4 with
              | [] => none
              | c3 :: rest5 =>
                if c3 = ',' then
                  match parseMembers fuel rest5 with
                  | some (fs, r) => some ((String.mk key, v) :: fs, r)
                  | none => none
                else if c3 = braceClose then some ([(String.mk key, v)], rest5)
                else none
          else none
    else none

end

/-- Model of `JSON.parse`: parse a complete JSON text (one value with only
trailing whitespace allowed); `none` models a thrown `SyntaxError`. -/
def parseJSON (s : String) : Option JSValue :=
  match parseValue (2 * s.data.length + 2) s.data with
  | some (v, rest) => if skipWs rest = [] then some v else none
  | none => none

/-- `unserialize` (src/cep-extension.js lines 305-328): the literal string
`"undefined"` maps to `undefined`; otherwise `JSON.parse` is attempted and
a parse failure is swallowed, returning the raw input string.  (On string
inputs, JS loose equality `==` against `"undefined"` is string equality.) -/
def unserialize (str : String) : JSValue :=
  if str = "undefined" then JSValue.undef
  else
    match parseJSON str with
    | some v => v
    | none => JSValue.str str

/-- Lowercase hexadecimal digit character for a value below 16. -/
def hexDigitChar (n : Nat) : Char :=
  if n < 10 then Char.ofNat (48 + n) else Char.ofNat (87 + n)

/-- JSON escape of one string character, as `JSON.stringify` renders it. -/
def escapeChar (c : Char) : List Char :=
  if c = '"' then ['\\', '"']
  else if c = '\\' then ['\\', '\\']
  else if c = '\n' then ['\\', 'n']
  else if c = '\r' then ['\\', 'r']
  else if c = '\t' then ['\\', 't']
  else if c = Char.ofNat 8 then ['\\', 'b']
  else if c = Char.ofNat 12 then ['\\', 'f']
  else if c.toNat < 32 then
    let hi := hexDigitChar (c.toNat / 16)
    let lo := hexDigitChar (c.toNat % 16)
    '\\' :: 'u' :: '0' :: '0' :: hi :: [lo]
  else [c]

/-- A JSON string literal: quoted and escaped, as `JSON.stringify` does. -/
def quoteString (s : String) : String :=
  String.mk ('"' :: (s.data.map escapeChar).flatten ++ ['"'])

/-- Decimal expansion of the fractional part of a nonnegative rational
(fuel-bounded; JS renders doubles with finitely many digits). -/
def fracDigits : Nat → ℚ → String
| 0, _ => ""
| n+1, q =>
  if q = 0 then ""
  else
    let d : ℤ := ⌊q * 10⌋
    toString d ++ fracDigits n (q * 10 - (d : ℚ))

/-- Decimal rendering of a nonnegative rational number. -/
def numToStringNonneg (q : ℚ) : String :=
  if q.den = 1 then toString q.num
  else toString ⌊q⌋ ++ "." ++ fracDigits 20 (q - (⌊q⌋ : ℚ))

/-- Decimal rendering of a rational number, as JS number-to-string. -/
def numToString (q : ℚ) : String :=
  if q < 0 then "-" ++ numToStringNonneg (-q) else numToStringNonneg q

/-- Comma-join a list of already-rendered JSON fragments. -/
def joinComma : List String → String
| [] => ""
| [x] => x
| x :: rest => x ++ "," ++ joinComma rest

mutual

/-- Model of `JSON.stringify`: `none` models the `undefined` result (for a
top-level `undefined` value); object members whose value is `undefined`
are omitted, array holes render as `null`. -/
def stringifyVal : JSValue → Option String
| JSValue.undef => none
| JSValue.null => some "null"
| JSValue.bool b => some (if b then "true" else "false")
| JSValue.num q => some (numToString q)
| JSValue.str s => some (quoteString s)
| JSValue.arr xs => some ("[" ++ joinComma (stringifyElems xs) ++ "]")
| JSValue.obj fs => some ("\x7b" ++ joinComma (stringifyFields fs) ++ "\x7d")

/-- Rendered array elements (`undefined` renders as `null`). -/
def stringifyElems : List JSValue → List String
| [] => []
| v :: rest => ((stringifyVal v).getD "null") :: stringifyElems rest

/-- Rendered object members, skipping `undefined`-valued ones. -/
def stringifyFields : List (String × JSValue) → List String
| [] => []
| (k, v) :: rest =>
  match stringifyVal v with
  | none => stringifyFields rest
  | some sv => (quoteString k ++ ":" ++ sv) :: stringifyFields rest

end

/-- `JSON.stringify` at the top level. -/
def jsonStringify (v : JSValue) : Option String := stringifyVal v

/-! ## Settings store (lines 144-158 of src/cep-extension.js) -/

/-- JS property lookup on an (insertion-ordered) object. -/
def lookupKey : List (String × JSValue) → String → Option JSValue
| [], _ => none
| (k, v) :: rest, name => if k = name then some v else lookupKey rest name

/-- JS property assignment `obj[name] = value`: update in place when the
key exists, else append. -/
def setKey : List (String × JSValue) → String → JSValue → List (String × JSValue)
| [], name, value => [(name, value)]
| (k, v) :: rest, name, value =>
  if k = name then (k, value) :: rest else (k, v) :: setKey rest name value

/-- The adapter state touched by the settings store: the in-memory
`settings` object and the contents of the settings file (`none` while the
file has never been written). -/
structure ExtState where
  settings : List (String × JSValue)
  fileContents : Option String

/-- `setProp` (lines 144-148): `this.settings[name] = value;` then
`global.cep.fs.writeFile(this.settingsFile, JSON.stringify(this.settings))`. -/
def setProp (st : ExtState) (name : String) (value : JSValue) : ExtState :=
  let s := setKey st.settings name value
  ExtState.mk s (jsonStringify (JSValue.obj s))

/-- `getProp` (lines 155-158): `return this.settings[name] || null;` — a
missing key reads as `undefined`, and `x || null` yields `x` when truthy,
else `null`. -/
def getProp (settings : List (String × JSValue)) (name : String) : JSValue :=
  match lookupKey settings name with
  | none => JSValue.null
  | some v => if truthy v then v else JSValue.null

/-! ## Initial settings load (line 67 of src/cep-extension.js) -/

/-- `unserialize` applied to the `data` field of the `readFile` result,
which is absent (`undefined`) when the file cannot be read: then
`undefined == "undefined"` is false, `JSON.parse(undefined)` throws, and
the catch returns the input, so the result is `undefined`. -/
def unserializeData : Option String → JSValue
| none => JSValue.undef
| some s => unserialize s

/-- Line 67: `this.settings = unserialize(...readFile(...).data) || \x7b\x7d;` —
the unserialized value when truthy, else the empty object. -/
def initialSettings (fileData : Option String) : JSValue :=
  let u := unserializeData fileData
  if truthy u then u else JSValue.obj []

/-! ## Color math (lines 188-238 of src/cep-extension.js) -/

/-- An RGB color triple as handed to `colorToHex` / `reverseColor`.
Channel values are numbers (rationals in this model). -/
structure Color where
  red : ℚ
  green : ℚ
  blue : ℚ

/-- `Math.round` for the values reached here (after clamping to `[0,255]`
they are nonnegative): round half toward positive infinity. -/
def jsRound (q : ℚ) : ℤ := ⌊q + 1/2⌋

/-- The clamping of `valueToHex` (lines 229-235): negative sums become 0,
sums above 255 become 255 — clamp, not wrap. -/
def clamp255 (q : ℚ) : ℚ := if q < 0 then 0 else if q > 255 then 255 else q

/-- `Number.prototype.toString(16)` digits of a natural number (lowercase),
fuel-bounded recursion on the quotient. -/
def toHexAux : Nat → Nat → List Char
| 0, _ => []
| fuel+1, n =>
  if n < 16 then [hexDigitChar n]
  else toHexAux fuel (n / 16) ++ [hexDigitChar (n % 16)]

/-- `n.toString(16)` for a natural number. -/
def toHexNat (n : Nat) : String := String.mk (toHexAux (n + 1) n)

/-- A lowercase hexadecimal digit character: a decimal digit or one of the
letters from 'a' to 'f'. -/
def isLowerHexDigit (c : Char) : Bool :=
  (48 ≤ c.toNat && c.toNat ≤ 57) || (97 ≤ c.toNat && c.toNat ≤ 102)

/-- Line 237: left-pad to two characters when one digit came out. -/
def pad2 (s : String) : String := if s.length == 1 then "0" ++ s else s

/-- `valueToHex` (lines 226-238).  The `delta` argument is `some d` for a
numeric delta and `none` for an absent or `NaN` delta (`!isNaN(delta)`
fails in both of those cases, leaving the value unshifted). -/
def valueToHex (value : ℚ) (delta : Option ℚ) : String :=
  let computedValue : ℚ :=
    match delta with
    | some d => value + d
    | none => value
  pad2 (toHexNat (jsRound (clamp255 computedValue)).toNat)

/-- `colorToHex` (lines 211-216): `"#"` followed by the three channel
encodings. -/
def colorToHex (color : Color) (delta : Option ℚ) : String :=
  "#" ++ valueToHex color.red delta ++ valueToHex color.green delta ++ valueToHex color.blue delta

/-- The per-channel inversion object built inside `reverseColor`
(lines 190-195): each channel becomes `Math.abs(255 - channel)`. -/
def reverseChannels (color : Color) : Color :=
  Color.mk |255 - color.red| |255 - color.green| |255 - color.blue|

/-- `reverseColor` (lines 188-198). -/
def reverseColor (color : Color) (delta : Option ℚ) : String :=
  colorToHex (reverseChannels color) delta

/-! ## Script bridge (lines 247-296 of src/cep-extension.js) -/

/-- The character class of the script-path regular expression on line 259:
`[\/a-zA-Z0-9\-|_\.\%\?]`. -/
def classChar (c : Char) : Bool :=
  c = '/' || c.isAlpha || c.isDigit || c = '-' || c = '|' || c = '_' ||
    c = '.' || c = '%' || c = '?'

/-- The mandatory tail of the regular expression: `\.js(fl|x)?` followed by
the end anchor, i.e. exactly `".js"`, `".jsfl"` or `".jsx"`. -/
def suffixOk (t : List Char) : Bool :=
  decide (t = ".js".data) || decide (t = ".jsfl".data) || decide (t = ".jsx".data)

/-- The anchored regular expression `/^([\/a-zA-Z0-9\-|_\.\%\?]+\.js(fl|x)?)$/`
of line 259: the input splits into a nonempty run of class characters
followed by one of the three extension tails. -/
def scriptPathMatch (s : String) : Bool :=
  (List.range (s.data.length + 1)).any fun i =>
    decide (0 < i) && (s.data.take i).all classChar && suffixOk (s.data.drop i)

/-- The second argument of `execute`: absent (`undefined`), a JSON value,
or a function (the completion callback passed in the two-argument form). -/
inductive Arg (α : Type) where
| undef : Arg α
| val : JSValue → Arg α
| func : (JSValue → α) → Arg α

/-- The observable dispatch of one `execute` invocation: fetch a script
file (re-invoking with the fetched text and the carried arguments), hand a
script payload to `csInterface.evalScript` together with the response
handler, or report the unsupported-host error. -/
inductive ExecStep (α : Type) where
| fetch : String → Arg α → Option (JSValue → α) → ExecStep α
| eval : String → (String → Option α) → ExecStep α
| err : String → ExecStep α

/-- Lines 271-274: when `args` is not `undefined`, prepend
`"var args=" + JSON.stringify(args) + ";\n"` to the script.  (String
concatenation with an `undefined` stringify result renders `"undefined"`.) -/
def addArgs {α : Type} (args : Arg α) (script : String) : String :=
  match args with
  | Arg.val v => "var args=" ++ (jsonStringify v).getD "undefined" ++ ";\n" ++ script
  | _ => script

/-- The body of `execute` after argument normalization (lines 256-295). -/
def executeRun {α : Type} (supported : Bool) (script : String) (args : Arg α)
    (callback : Option (JSValue → α)) : ExecStep α :=
  if supported then
    if scriptPathMatch script then ExecStep.fetch script args callback
    else
      ExecStep.eval (addArgs args script)
        (fun response =>
          match callback with
          | some cb => some (cb (unserialize response))
          | none => none)
  else ExecStep.err "Unable to execute command"

/-- `execute` (lines 247-296), including the lines 250-254 normalization:
a function in the `args` position becomes the callback and `args` becomes
`undefined`. -/
def execute {α : Type} (supported : Bool) (script : String) (args : Arg α)
    (callback : Option (JSValue → α)) : ExecStep α :=
  match args with
  | Arg.func f => executeRun supported script Arg.undef (some f)
  | Arg.undef => executeRun supported script Arg.undef callback
  | Arg.val v => executeRun supported script (Arg.val v) callback

/-- Whether a dispatch step is the file-fetch branch. -/
def isFetch {α : Type} : ExecStep α → Bool
| ExecStep.fetch _ _ _ => true
| _ => false

/-- Whether a dispatch step is the unsupported-host error branch. -/
def isErr {α : Type} : ExecStep α → Bool
| ExecStep.err _ => true
| _ => false

/-! ## Construction (lines 12-99 of src/cep-extension.js) -/

/-- The host-supplied environment read during construction: presence of
the `__adobe_cep__` bridge, the system paths, the settings file contents
(`none` when absent or unreadable) and the host application name.  (The
DOM stylesheet, theme-change listener registration and the initial
`update`/`init` calls are display side effects outside this state model.) -/
structure HostEnv where
  hostPresent : Bool
  extensionPath : String
  userDataPath : String
  settingsFileData : Option String
  appName : String

/-- The constructed adapter instance fields that the claims refer to. -/
structure CEPExtension where
  supported : Bool
  extensionPath : String
  settingsPath : String
  settingsFile : String
  settings : JSValue
  appName : String
  isFlash : Bool

/-- Helper for stating the C5 claim exactly as worded (refinement
comparison).  Modelled from the claim's words, not from the source:
"script consists solely of characters from the restricted set (letters,
digits, '/', '-', '|', '_', '.', '%', '?') and ends in '.js', '.jsfl', or
'.jsx'". -/
def specFilePath (s : String) : Bool :=
  s.data.all classChar &&
    (".js".data.isSuffixOf s.data || ".jsfl".data.isSuffixOf s.data ||
      ".jsx".data.isSuffixOf s.data)

/-- The `CEPExtension` constructor (lines 12-99): `supported` is the
presence of `global.__adobe_cep__`; when it is false the constructor
throws (modelled as `Except.error`) before any further initialization;
otherwise the paths are derived, the settings directory is created, the
settings file is read and unserialized with the `|| \x7b\x7d` fallback,
and the app identity is recorded. -/
def makeCEPExtension (env : HostEnv) (ns : String) : Except String CEPExtension :=
  if !env.hostPresent then
    Except.error "Extension must run as a CEP Extension inside Adobe applications"
  else
    let settingsPath := env.userDataPath ++ "/" ++ ns
    Except.ok
      (CEPExtension.mk env.hostPresent env.extensionPath settingsPath
        (settingsPath ++ "/settings.json") (initialSettings env.settingsFileData)
        env.appName (env.appName == "FLPR"))

/-! ## Helper lemmas -/

/-- Setting a key makes it readable: JS `obj[k] = v` followed by `obj[k]`. -/
theorem lookup_setKey_self (m : List (String × JSValue)) (k : String) (v : JSValue) :
    lookupKey (setKey m k v) k = some v := by
  induction m with
  | nil => simp [setKey, lookupKey]
  | cons kv rest ih =>
    obtain ⟨k', v'⟩ := kv
    by_cases h : k' = k
    · simp [setKey, lookupKey, h]
    · simp [setKey, lookupKey, h, ih]

/-- Setting a key leaves every other key's binding unchanged. -/
theorem lookup_setKey_other (m : List (String × JSValue)) (k k' : String) (v : JSValue)
    (h : k' ≠ k) : lookupKey (setKey m k v) k' = lookupKey m k' := by
  have h' : ¬k = k' := fun hh => h hh.symm
  induction m with
  | nil => simp [setKey, lookupKey, h']
  | cons kv rest ih =>
    obtain ⟨a, b⟩ := kv
    by_cases ha : a = k
    · subst ha
      simp [setKey, lookupKey, h']
    · simp [setKey, lookupKey, ha, ih]

/-! ## Claims -/

/-- Claim C4 (confirmed): `unserialize` is a three-way case split — the
literal string "undefined" yields the explicit absent value; otherwise a
string that parses as JSON yields the parsed value; otherwise the raw
input string comes back unchanged, so no parse error is surfaced; in
particular the invalid-JSON input consisting of one left brace comes back
verbatim. -/
theorem c4_unserialize_three_way :
    (∀ s : String, s = "undefined" → unserialize s = JSValue.undef) ∧
    (∀ (s : String) (v : JSValue), s ≠ "undefined" → parseJSON s = some v →
      unserialize s = v) ∧
    (∀ s : String, s ≠ "undefined" → parseJSON s = none →
      unserialize s = JSValue.str s) ∧
    unserialize "\x7b" = JSValue.str "\x7b" := by
  refine ⟨?_, ?_, ?_, rfl⟩
  · intro s hs; rw [hs]; rfl
  · intro s v hne hp; unfold unserialize; rw [if_neg hne, hp]
  · intro s hne hp; unfold unserialize; rw [if_neg hne, hp]

/-- Witness for C4 at concrete inputs. -/
theorem c4_witness : unserialize "\x7b" = JSValue.str "\x7b" :=
  c4_unserialize_three_way.2.2.1 "\x7b" (by decide) rfl

/-- Claim C10 (confirmed): the two absent sentinels are distinct values —
`getProp` answers `null` for an unset or falsy property, while
`unserialize "undefined"` yields `undefined`, and `null ≠ undefined`. -/
theorem c10_distinct_sentinels :
    (∀ (m : List (String × JSValue)) (k : String), lookupKey m k = none →
      getProp m k = JSValue.null) ∧
    (∀ (m : List (String × JSValue)) (k : String) (v : JSValue),
      lookupKey m k = some v → truthy v = false → getProp m k = JSValue.null) ∧
    unserialize "undefined" = JSValue.undef ∧
    JSValue.null ≠ JSValue.undef := by
  refine ⟨?_, ?_, rfl, ?_⟩
  · intro m k h; simp [getProp, h]
  · intro m k v h ht; simp [getProp, h, ht]
  · intro h; cases h

/-- Witness for C10 at a concrete unset key. -/
theorem c10_witness : getProp [] "missing" = JSValue.null :=
  c10_distinct_sentinels.1 [] "missing" rfl

/-- Counterexample to claim C1 as stated: a settings file containing the
single left-brace character is invalid JSON, yet the loaded settings value
is the raw string, not the empty object — so the loaded settings need not
be a JSON object. -/
theorem c1_counterexample :
    initialSettings (some "\x7b") = JSValue.str "\x7b" ∧
    JSValue.str "\x7b" ≠ JSValue.obj [] :=
  ⟨rfl, fun h => JSValue.noConfusion h⟩

/-- Claim C1 (amended): the loaded settings value is the unserialized file
content when that value is truthy, else the empty object.  An absent or
unreadable file, empty content, the literal "undefined", and any content
whose parse is falsy all yield the empty object; but truthy non-object
values are kept, and invalid non-empty JSON yields the raw content
string. -/
theorem c1_initial_settings_amended :
    initialSettings none = JSValue.obj [] ∧
    initialSettings (some "") = JSValue.obj [] ∧
    initialSettings (some "undefined") = JSValue.obj [] ∧
    (∀ (s : String) (v : JSValue), s ≠ "undefined" → parseJSON s = some v →
      truthy v = false → initialSettings (some s) = JSValue.obj []) ∧
    (∀ (s : String) (v : JSValue), s ≠ "undefined" → parseJSON s = some v →
      truthy v = true → initialSettings (some s) = v) ∧
    (∀ s : String, s ≠ "undefined" → parseJSON s = none → s ≠ "" →
      initialSettings (some s) = JSValue.str s) := by
  refine ⟨rfl, rfl, rfl, ?_, ?_, ?_⟩
  · intro s v hne hp ht
    have hu : unserializeData (some s) = v := by
      show unserialize s = v
      unfold unserialize
      rw [if_neg hne, hp]
    simp [initialSettings, hu, ht]
  · intro s v hne hp ht
    have hu : unserializeData (some s) = v := by
      show unserialize s = v
      unfold unserialize
      rw [if_neg hne, hp]
    simp [initialSettings, hu, ht]
  · intro s hne hp hne'
    have hu : unserializeData (some s) = JSValue.str s := by
      show unserialize s = JSValue.str s
      unfold unserialize
      rw [if_neg hne, hp]
    simp [initialSettings, hu, truthy, hne']

/-- Witness for C1 (amended) at the invalid-JSON content of one left
brace. -/
theorem c1_witness : initialSettings (some "\x7b") = JSValue.str "\x7b" :=
  c1_initial_settings_amended.2.2.2.2.2 "\x7b" (by decide) rfl (by decide)

/-- Claim C2 (confirmed): after `setProp k v`, `getProp k` returns `v`
when `v` is truthy, and returns the absent sentinel `null` when `v` is
falsy. -/
theorem c2_set_get_roundtrip :
    ∀ (st : ExtState) (k : String) (v : JSValue),
      (truthy v = true → getProp (setProp st k v).settings k = v) ∧
      (truthy v = false → getProp (setProp st k v).settings k = JSValue.null) := by
  intro st k v
  have hl : lookupKey (setProp st k v).settings k = some v :=
    lookup_setKey_self st.settings k v
  constructor <;> intro ht <;> simp [getProp, hl, ht]

/-- Witness for C2: a truthy and a falsy round trip at concrete inputs. -/
theorem c2_witness :
    getProp (setProp (ExtState.mk [] none) "k" (JSValue.bool true)).settings "k" =
        JSValue.bool true ∧
    getProp (setProp (ExtState.mk [] none) "k" (JSValue.bool false)).settings "k" =
        JSValue.null :=
  ⟨(c2_set_get_roundtrip (ExtState.mk [] none) "k" (JSValue.bool true)).1 rfl,
   (c2_set_get_roundtrip (ExtState.mk [] none) "k" (JSValue.bool false)).2 rfl⟩

/-- Claim C7 (confirmed): `setProp` changes the in-memory settings only at
the given key, and the file write is the JSON serialization of the entire
updated map, independent of the previous file contents (a full-file
overwrite). -/
theorem c7_setProp_frame :
    ∀ (st : ExtState) (n : String) (v : JSValue),
      lookupKey (setProp st n v).settings n = some v ∧
      (∀ k : String, k ≠ n → lookupKey (setProp st n v).settings k =
        lookupKey st.settings k) ∧
      (setProp st n v).fileContents =
        jsonStringify (JSValue.obj (setProp st n v).settings) ∧
      (∀ st2 : ExtState, st2.settings = st.settings →
        (setProp st2 n v).fileContents = (setProp st n v).fileContents) := by
  intro st n v
  refine ⟨lookup_setKey_self st.settings n v, ?_, rfl, ?_⟩
  · intro k hk
    exact lookup_setKey_other st.settings n k v hk
  · intro st2 h2
    unfold setProp
    rw [h2]

/-- Witness for C7: frame condition at concrete keys and states with
different prior file contents. -/
theorem c7_witness :
    lookupKey (setProp (ExtState.mk [] none) "a" JSValue.null).settings "b" =
        lookupKey [] "b" ∧
    (setProp (ExtState.mk [] (some "old")) "a" JSValue.null).fileContents =
        (setProp (ExtState.mk [] none) "a" JSValue.null).fileContents :=
  ⟨(c7_setProp_frame (ExtState.mk [] none) "a" JSValue.null).2.1 "b" (by decide),
   (c7_setProp_frame (ExtState.mk [] none) "a" JSValue.null).2.2.2
     (ExtState.mk [] (some "old")) rfl⟩

/-- Claim C6 (confirmed): the per-channel inversion `|255 - c|` applied
twice is the identity on `[0,255]` channel triples (no delta involved:
`reverseColor` only applies its delta inside the later hex encoding). -/
theorem c6_reverse_involution :
    ∀ r g b : ℚ, 0 ≤ r → r ≤ 255 → 0 ≤ g → g ≤ 255 → 0 ≤ b → b ≤ 255 →
      reverseChannels (reverseChannels (Color.mk r g b)) = Color.mk r g b := by
  intro r g b hr0 hr1 hg0 hg1 hb0 hb1
  have key : ∀ x : ℚ, 0 ≤ x → x ≤ 255 → abs (255 - abs (255 - x)) = x := by
    intro x h0 h1
    rw [abs_of_nonneg (by linarith : (0:ℚ) ≤ 255 - x),
      show (255:ℚ) - (255 - x) = x by ring, abs_of_nonneg h0]
  show Color.mk (abs (255 - abs (255 - r))) (abs (255 - abs (255 - g)))
      (abs (255 - abs (255 - b))) = Color.mk r g b
  rw [key r hr0 hr1, key g hg0 hg1, key b hb0 hb1]

/-- Witness for C6 at the spec's example color (10, 20, 30). -/
theorem c6_witness :
    reverseChannels (reverseChannels (Color.mk 10 20 30)) = Color.mk 10 20 30 :=
  c6_reverse_involution 10 20 30 (by norm_num) (by norm_num) (by norm_num)
    (by norm_num) (by norm_num) (by norm_num)

set_option maxRecDepth 8192 in
/-- For every value below 256, the padded hex rendering has exactly two
characters, all lowercase hexadecimal digits. -/
theorem toHex_two_digits : ∀ n : Nat, n < 256 →
    (pad2 (toHexNat n)).length = 2 ∧
      ((pad2 (toHexNat n)).data.all isLowerHexDigit) = true := by decide

/-- The clamped, rounded channel value always lands in `[0,255]`. -/
theorem clampRound_le (q : ℚ) : (jsRound (clamp255 q)).toNat ≤ 255 := by
  have hcl : 0 ≤ clamp255 q ∧ clamp255 q ≤ 255 := by
    unfold clamp255
    split_ifs with h h' <;> constructor <;> linarith
  have hle : jsRound (clamp255 q) ≤ 255 := by
    unfold jsRound
    calc ⌊clamp255 q + 1/2⌋ ≤ ⌊(255:ℚ) + 1/2⌋ :=
          Int.floor_le_floor (by linarith [hcl.2])
    _ = 255 := by norm_num [Int.floor_eq_iff]
  omega

/-- Claim C3 (confirmed): the channel-to-hex encoding adds a numeric delta
(an absent or `NaN` delta leaves the value unshifted, which coincides with
adding nothing), clamps to `[0,255]` instead of wrapping, rounds to the
nearest integer, and always yields exactly two lowercase zero-padded hex
characters; value 5 renders as "05", and `colorToHex` concatenates the
three channel encodings after a leading '#'. -/
theorem c3_valueToHex_encoding :
    ∀ v d : ℚ, 0 ≤ v → v ≤ 255 →
      valueToHex v (some d) = valueToHex (v + d) none ∧
      (valueToHex v (some d)).length = 2 ∧
      (valueToHex v none).length = 2 ∧
      ((valueToHex v (some d)).data.all isLowerHexDigit) = true ∧
      (255 ≤ v + d → valueToHex v (some d) = "ff") ∧
      (v + d ≤ 0 → valueToHex v (some d) = "00") ∧
      valueToHex 5 none = "05" ∧
      (∀ c : Color, colorToHex c (some d) =
        "#" ++ valueToHex c.red (some d) ++ valueToHex c.green (some d) ++
          valueToHex c.blue (some d)) := by
  intro v d h0 h255
  have key : ∀ q : ℚ,
      (pad2 (toHexNat (jsRound (clamp255 q)).toNat)).length = 2 ∧
        ((pad2 (toHexNat (jsRound (clamp255 q)).toNat)).data.all isLowerHexDigit) = true := by
    intro q
    refine toHex_two_digits _ ?_
    have := clampRound_le q
    omega
  have hlen2 : ∀ q : ℚ, (valueToHex q none).length = 2 := fun q => (key q).1
  have hhex : ∀ q : ℚ, ((valueToHex q none).data.all isLowerHexDigit) = true :=
    fun q => (key q).2
  have hv5 : valueToHex 5 none = "05" := by
    show pad2 (toHexNat (jsRound (clamp255 5)).toNat) = "05"
    have hc : clamp255 5 = 5 := by unfold clamp255; norm_num
    have hr : jsRound (5:ℚ) = 5 := by
      unfold jsRound
      norm_num [Int.floor_eq_iff]
    rw [hc, hr]
    rfl
  refine ⟨rfl, hlen2 (v + d), hlen2 v, hhex (v + d), ?_, ?_, hv5, fun c => rfl⟩
  · intro h
    show pad2 (toHexNat (jsRound (clamp255 (v + d))).toNat) = "ff"
    have hc : clamp255 (v + d) = 255 := by
      unfold clamp255
      split_ifs with ha hb
      · linarith
      · rfl
      · linarith
    have hr : jsRound (255:ℚ) = 255 := by
      unfold jsRound
      norm_num [Int.floor_eq_iff]
    rw [hc, hr]
    rfl
  · intro h
    show pad2 (toHexNat (jsRound (clamp255 (v + d))).toNat) = "00"
    have hc : clamp255 (v + d) = 0 := by
      unfold clamp255
      split_ifs with ha hb
      · rfl
      · linarith
      · linarith
    have hr : jsRound (0:ℚ) = 0 := by
      unfold jsRound
      norm_num [Int.floor_eq_iff]
    rw [hc, hr]
    rfl

/-- Witness for C3: a concrete in-range channel with an overflowing and an
underflowing delta, and the "05" padding example. -/
theorem c3_witness :
    valueToHex 250 (some 10) = "ff" ∧ valueToHex 5 (some (-10)) = "00" ∧
      valueToHex 5 none = "05" :=
  ⟨(c3_valueToHex_encoding 250 10 (by norm_num) (by norm_num)).2.2.2.2.1 (by norm_num),
   (c3_valueToHex_encoding 5 (-10) (by norm_num) (by norm_num)).2.2.2.2.2.1 (by norm_num),
   (c3_valueToHex_encoding 5 0 (by norm_num) (by norm_num)).2.2.2.2.2.2.1⟩

/-- The script-path test of line 259 holds exactly when the string is a
run of class characters ending in one of the three extension tails with at
least one character before the tail. -/
theorem scriptPathMatch_characterization (s : String) :
    scriptPathMatch s = true ↔
      (s.data.all classChar = true ∧
        ∃ t : String, (t = ".js" ∨ t = ".jsfl" ∨ t = ".jsx") ∧
          t.data <:+ s.data ∧ t.data.length < s.data.length) := by
  unfold scriptPathMatch
  rw [List.any_eq_true]
  constructor
  · rintro ⟨i, hmem, hcond⟩
    rw [List.mem_range] at hmem
    simp only [Bool.and_eq_true, decide_eq_true_eq] at hcond
    obtain ⟨⟨hip, htake⟩, hsuf⟩ := hcond
    have hsplit : s.data.take i ++ s.data.drop i = s.data := List.take_append_drop i s.data
    have hdropsuf : s.data.drop i <:+ s.data := List.drop_suffix i s.data
    have hlend : (s.data.drop i).length = s.data.length - i := List.length_drop i s.data
    unfold suffixOk at hsuf
    simp only [Bool.or_eq_true, decide_eq_true_eq] at hsuf
    have build : ∀ t : String, s.data.drop i = t.data → t.data.length = 3 ∨ t.data.length = 4 ∨ t.data.length = 5 →
        t.data.all classChar = true →
        s.data.all classChar = true ∧ t.data <:+ s.data ∧ t.data.length < s.data.length := by
      intro t hdrop htlen htall
      refine ⟨?_, hdrop ▸ hdropsuf, ?_⟩
      · calc s.data.all classChar
            = (s.data.take i ++ s.data.drop i).all classChar := by rw [hsplit]
          _ = ((s.data.take i).all classChar && (s.data.drop i).all classChar) :=
              List.all_append
          _ = true := by rw [htake, hdrop, htall]; rfl
      · have h3 : (s.data.drop i).length = t.data.length := by rw [hdrop]
        omega
    rcases hsuf with (h | h) | h
    · exact ⟨(build ".js" h (by decide) (by decide)).1,
        ".js", Or.inl rfl, (build ".js" h (by decide) (by decide)).2⟩
    · exact ⟨(build ".jsfl" h (by decide) (by decide)).1,
        ".jsfl", Or.inr (Or.inl rfl), (build ".jsfl" h (by decide) (by decide)).2⟩
    · exact ⟨(build ".jsx" h (by decide) (by decide)).1,
        ".jsx", Or.inr (Or.inr rfl), (build ".jsx" h (by decide) (by decide)).2⟩
  · rintro ⟨hall, t, ht, ⟨p, hp⟩, hlen⟩
    have hlenapp : p.length + t.data.length = s.data.length := by
      have := congrArg List.length hp
      rw [List.length_append] at this
      exact this
    refine ⟨p.length, ?_, ?_⟩
    · rw [List.mem_range]; omega
    · simp only [Bool.and_eq_true, decide_eq_true_eq]
      have htk : s.data.take p.length = p := by
        rw [← hp]; exact List.take_left p t.data
      have hdr : s.data.drop p.length = t.data := by
        rw [← hp]; exact List.drop_left p t.data
      have hpall : p.all classChar = true := by
        have happ : (p ++ t.data).all classChar = true := by rw [hp]; exact hall
        rw [List.all_append, Bool.and_eq_true] at happ
        exact happ.1
      refine ⟨⟨by omega, by rw [htk]; exact hpall⟩, ?_⟩
      rw [hdr]
      unfold suffixOk
      simp only [Bool.or_eq_true, decide_eq_true_eq]
      rcases ht with h | h | h <;> rw [h] <;> simp

/-- Counterexample to claim C5 as stated: the string ".js" consists solely
of restricted-set characters and ends in ".js", yet `execute` does not
dispatch a fetch for it — the regular expression requires a nonempty run
of class characters before the extension tail. -/
theorem c5_counterexample :
    specFilePath ".js" = true ∧
      isFetch (@execute Unit true ".js" Arg.undef none) = false := by
  constructor
  · decide
  · decide

/-- Claim C5 (amended): `execute` treats `script` as a file path (fetch
branch) iff `script` consists solely of restricted-set characters, ends in
".js", ".jsfl" or ".jsx", and has at least one character before that tail
(the matched tail is strictly shorter than the whole string); the bare
strings ".js", ".jsfl", ".jsx" are therefore dispatched inline. -/
theorem c5_execute_path_dispatch :
    ∀ (α : Type) (s : String) (a : Arg α) (cb : Option (JSValue → α)),
      isFetch (execute true s a cb) = scriptPathMatch s ∧
      (scriptPathMatch s = true ↔
        (s.data.all classChar = true ∧
          ∃ t : String, (t = ".js" ∨ t = ".jsfl" ∨ t = ".jsx") ∧
            t.data <:+ s.data ∧ t.data.length < s.data.length)) := by
  intro α s a cb
  refine ⟨?_, scriptPathMatch_characterization s⟩
  cases a <;> cases h : scriptPathMatch s <;> simp [execute, executeRun, h, isFetch]

/-- Witness for C5 (amended): "main.jsx" is fetched as a file. -/
theorem c5_witness : isFetch (@execute Unit true "main.jsx" Arg.undef none) = true := by
  have h := c5_execute_path_dispatch Unit "main.jsx" Arg.undef none
  rw [h.1]
  exact h.2.mpr ⟨by decide, ".jsx", Or.inr (Or.inr rfl), ⟨"main".data, by decide⟩, by decide⟩

/-- Claim C8 (confirmed): a function in the second argument position of
`execute` becomes the completion callback — the script is dispatched
without a `var args=...` prefix and the callback receives the deserialized
host response (or, on the file-path branch, is carried along with
`args = undefined` for the re-invocation). -/
theorem c8_function_second_arg :
    ∀ (α : Type) (s : String) (f : JSValue → α),
      (scriptPathMatch s = false →
        execute true s (Arg.func f) none =
          ExecStep.eval s (fun response => some (f (unserialize response)))) ∧
      (scriptPathMatch s = true →
        execute true s (Arg.func f) none = ExecStep.fetch s Arg.undef (some f)) := by
  intro α s f
  constructor <;> intro h <;> simp [execute, executeRun, h, addArgs]

/-- Witness for C8 at a concrete inline script and callback. -/
theorem c8_witness :
    execute true "alert(1)" (Arg.func truthy) none =
      ExecStep.eval "alert(1)" (fun response => some (truthy (unserialize response))) :=
  (c8_function_second_arg Bool "alert(1)" truthy).1 (by decide)

/-- Claim C9 (confirmed): a successfully constructed adapter instance has
`supported = true` (construction fails before any other initialization
when the host bridge is undetected), so `execute` on a constructed
instance never reaches the unsupported-host error branch. -/
theorem c9_constructed_implies_supported :
    ∀ (env : HostEnv) (ns : String) (inst : CEPExtension),
      makeCEPExtension env ns = Except.ok inst →
      inst.supported = true ∧
      ∀ (α : Type) (s : String) (a : Arg α) (cb : Option (JSValue → α)),
        isErr (execute inst.supported s a cb) = false := by
  intro env ns inst h
  have hsup : inst.supported = true := by
    cases hh : env.hostPresent
    · rw [makeCEPExtension, hh] at h
      simp at h
    · rw [makeCEPExtension, hh] at h
      simp only [Bool.not_true, Bool.false_eq_true, if_false, Except.ok.injEq] at h
      rw [← h]
  refine ⟨hsup, ?_⟩
  intro α s a cb
  rw [hsup]
  cases a <;> cases hm : scriptPathMatch s <;> simp [execute, executeRun, hm, isErr]

/-- Witness for C9 at a concrete environment with the host bridge present. -/
theorem c9_witness :
    (CEPExtension.mk true "/ext" "/ud/com.example.App" "/ud/com.example.App/settings.json"
        (JSValue.obj []) "PHSP" false).supported = true ∧
      isErr (@execute Unit
        (CEPExtension.mk true "/ext" "/ud/com.example.App" "/ud/com.example.App/settings.json"
          (JSValue.obj []) "PHSP" false).supported "x" Arg.undef none) = false := by
  have h := c9_constructed_implies_supported
    (HostEnv.mk true "/ext" "/ud" none "PHSP") "com.example.App"
    (CEPExtension.mk true "/ext" "/ud/com.example.App" "/ud/com.example.App/settings.json"
      (JSValue.obj []) "PHSP" false) rfl
  exact ⟨h.1, h.2 Unit "x" Arg.undef none⟩

end CEP
